import Mathlib

/-!
Verification of the smart-rib-manager extraction/validation pipeline.

Python strings are embedded as `List Char`; `None`-able values as `Option`;
database tables as Lean lists; the external OCR / structured-extraction
services as explicit oracles passed to the functions that call them.
Machine-level concerns (uuid generation, timestamps, HTML rendering) are
outside every claim and are not modelled.
-/

namespace SmartRib

/-- Interpretation of a digit string as a decimal number, the way Python's
`int` reads `rib[0:3]` and friends in `verify_rib_key` (leading zeros allowed). -/
def natOfDigits (l : List Char) : Nat :=
  l.foldl (fun n c => 10 * n + (c.toNat - 48)) 0

/-- Python's `str.strip()`: drop whitespace from both ends. -/
def pyStrip (l : List Char) : List Char :=
  ((l.dropWhile Char.isWhitespace).reverse.dropWhile Char.isWhitespace).reverse

/-- The cleaning used by `ocr.validate_extraction_in_source` and
`cin_helper.clean_cin_number`: `re.sub(r'[^a-zA-Z0-9]', '', s).upper()` —
keep ASCII letters and digits, then uppercase. -/
def cleanAlnum (l : List Char) : List Char :=
  (l.filter (fun c => c.isAlpha || c.isDigit)).map Char.toUpper

/-- Leftmost index at which `needle` occurs in `hay` as a contiguous run
(Python's `str.find`, `some i` instead of `i`, `none` instead of `-1`). -/
def substrFind (hay needle : List Char) : Option Nat :=
  if needle.isPrefixOf hay then some 0
  else
    match hay with
    | [] => none
    | _ :: t => (substrFind t needle).map (· + 1)

/-- Python's `needle in hay` substring test. -/
def containsSub (hay needle : List Char) : Bool :=
  (substrFind hay needle).isSome

/-! ## app/services/banking.py -/

/-- `banking.normalize_rib`: `re.sub(r'\D', '', rib)` — keep only digits
(the `if not rib: return ""` guard is the same as filtering the empty list). -/
def normalize_rib (rib : List Char) : List Char :=
  rib.filter Char.isDigit

/-- The letter-to-digit confusable mapping of `banking.sanitize_ocr_numbers`. -/
def OCR_MAPPING : List (Char × Char) :=
  [('O', '0'), ('D', '0'), ('B', '8'), ('I', '1'), ('L', '1'), ('S', '5'), ('Z', '2')]

/-- `banking.sanitize_ocr_numbers`: uppercase, apply each confusable
substitution (`str.replace` of a single character is a character-wise map),
then strip non-digits. -/
def sanitize_ocr_numbers (text : List Char) : List Char :=
  let up := text.map Char.toUpper
  let subst := OCR_MAPPING.foldl
    (fun t p => t.map (fun c => if c = p.1 then p.2 else c)) up
  subst.filter Char.isDigit

/-- `banking.verify_rib_key`: the Moroccan modulo-97 key check.
`int` on the checked digit-only slices never raises, so the `except`
branch of the source is unreachable beyond the explicit length/digit guard. -/
def verify_rib_key (rib : List Char) : Bool :=
  if rib.length = 24 && rib.all Char.isDigit then
    let bank_code := natOfDigits (rib.take 3)
    let city_code := natOfDigits ((rib.drop 3).take 3)
    let account_num := natOfDigits ((rib.drop 6).take 16)
    let key_provided := natOfDigits ((rib.drop 22).take 2)
    let remainder := (89 * bank_code + 15 * city_code + 3 * account_num) % 97
    97 - remainder = key_provided
  else false

/-- The hardcoded bank table of `banking.MOROCCAN_BANKS` (codes with names). -/
def MOROCCAN_BANKS : List (List Char × List Char) :=
  [("007".toList, "Attijariwafa Bank".toList),
   ("011".toList, "BMCE Bank of Africa".toList),
   ("013".toList, "BMCI (BNP Paribas)".toList),
   ("021".toList, "Crédit du Maroc".toList),
   ("022".toList, "Société Générale Maroc".toList),
   ("023".toList, "BMCI".toList),
   ("031".toList, "Crédit Agricole du Maroc".toList),
   ("028".toList, "Citibank Maghreb".toList),
   ("101".toList, "Banque Populaire (Régional)".toList),
   ("127".toList, "Banque Populaire".toList),
   ("145".toList, "Banque Populaire".toList),
   ("157".toList, "Banque Populaire (BCP)".toList),
   ("190".toList, "Banque Populaire".toList),
   ("225".toList, "Al Barid Bank".toList),
   ("230".toList, "CIH Bank".toList),
   ("310".toList, "Trésorerie Générale".toList),
   ("002".toList, "Bank Al-Maghrib".toList),
   ("005".toList, "Arab Bank".toList)]

/-- The bank codes seeded into the BankDirectory table by
`crud.create_initial_banks` (no `023` entry, unlike `MOROCCAN_BANKS`). -/
def INITIAL_BANK_CODES : List (List Char) :=
  ["007".toList, "011".toList, "013".toList, "021".toList, "022".toList,
   "031".toList, "028".toList, "101".toList, "127".toList, "145".toList,
   "157".toList, "190".toList, "225".toList, "230".toList, "310".toList,
   "002".toList, "005".toList]

/-- Result shape of `banking.validate_moroccan_rib` (the dict it returns). -/
structure RibValidationResult where
  isValid : Bool
  bankName : List Char
  normalized : List Char
  keyCheck : Bool
  deriving DecidableEq, Repr

/-- `banking.validate_moroccan_rib(rib, ai_bank_name=None)` as it stands in
`src/app/services/banking.py`: two-tier cleaning, bank-name resolution
against the hardcoded table, and `isValid` taken from the modulo-97 key
check (`math_valid`), not from bank-code membership. -/
def validate_moroccan_rib (rib : List Char) (ai_bank_name : Option (List Char)) :
    RibValidationResult :=
  let clean0 := normalize_rib rib
  let clean := if clean0.length ≠ 24 then sanitize_ocr_numbers rib else clean0
  let bank_name :=
    if 3 ≤ clean.length then
      match MOROCCAN_BANKS.find? (fun e => e.1 == clean.take 3) with
      | some e => e.2
      | none =>
        match ai_bank_name with
        | some ai => if 2 < ai.length then ai ++ " (Détecté par IA)".toList
                     else "Banque Inconnue".toList
        | none => "Banque Inconnue".toList
    else "Banque Inconnue".toList
  let math_valid := if clean.length = 24 then verify_rib_key clean else false
  { isValid := math_valid, bankName := bank_name,
    normalized := clean, keyCheck := math_valid }

/-- Modelled from the spec: the bank-directory-aware validity decision that
`app/routers/ribs.py` invokes as `banking.validate_moroccan_rib(rib, banks_dict,
ai_bank_name)` (three arguments) and whose result field `isValid` it reads.
That three-argument function is missing from `src/` — `src/app/services/banking.py`
only contains an incompatible older two-argument version built on the modulo-97
key — so this definition follows the spec: after the two-tier cleaning of §4.2,
`isValid` holds iff the cleaned value has length 24 and its first 3 digits are a
registered BankDirectory code ("the only deterministic checks are length and
bank-code membership", §4.5), exactly the checks `update_rib` inlines. -/
def validate_moroccan_rib_db (rib : List Char) (codes : List (List Char)) : Bool :=
  let clean0 := normalize_rib rib
  let clean := if clean0.length ≠ 24 then sanitize_ocr_numbers rib else clean0
  clean.length = 24 && decide (clean.take 3 ∈ codes)

/-! ## app/services/ocr.py -/

/-- The JSON object Gemini returns for a RIB document (`data` in
`parse_extracted_text`); each field may be `null` or missing. -/
structure ModelJson where
  rib : Option (List Char)
  firstName : Option (List Char)
  lastName : Option (List Char)
  bankName : Option (List Char)
  deriving DecidableEq, Repr

/-- The dict `parse_extracted_text` returns for a RIB document. -/
structure ParsedRib where
  rib : List Char
  firstName : List Char
  lastName : List Char
  bankName : List Char
  raw_text : List Char
  deriving DecidableEq, Repr

/-- The text handed to the extraction model: the prompt interpolates
`raw_text[:5000]`. -/
def model_input (raw_text : List Char) : List Char :=
  raw_text.take 5000

/-- Collect `n` digits, each optionally followed by whitespace — the
`(?:\d\s*){n}` part of the IBAN regex. Returns the digits only (the caller
strips the interleaved whitespace with `re.sub(r'\D', '', ...)` anyway). -/
def takeDigitsWs : Nat → List Char → Option (List Char)
  | 0, _ => some []
  | _ + 1, [] => none
  | n + 1, c :: rest =>
    if c.isDigit then (takeDigitsWs n (rest.dropWhile Char.isWhitespace)).map (c :: ·)
    else none

/-- Match `MA\s*\d{2}\s*((?:\d\s*){24})` (with `re.IGNORECASE`) at the head of
the list; on success return the 24 captured digits. The greedy `\s*` runs
cannot overlap the digit/letter atoms that follow them, so this
backtracking-free matcher agrees with the regex. -/
def matchIbanAt (l : List Char) : Option (List Char) :=
  match l with
  | m :: a :: rest =>
    if m.toUpper = 'M' && a.toUpper = 'A' then
      let r1 := rest.dropWhile Char.isWhitespace
      match r1 with
      | d1 :: d2 :: r2 =>
        if d1.isDigit && d2.isDigit then
          takeDigitsWs 24 (r2.dropWhile Char.isWhitespace)
        else none
      | _ => none
    else none
  | _ => none

/-- `re.search` of the IBAN pattern over the raw text: try every position left
to right, first match wins (strategy 1 of the RIB post-processing). -/
def iban_scan : List Char → Option (List Char)
  | [] => matchIbanAt []
  | l@(_ :: t) =>
    match matchIbanAt l with
    | some r => some r
    | none => iban_scan t

/-- Strategy 2 of the RIB post-processing: for each known bank code in order,
find its first occurrence in the cleaned digit string and take the 24-digit
window starting there; a too-short window moves on to the next code. -/
def code_scan (clean : List Char) : List (List Char) → Option (List Char)
  | [] => none
  | code :: rest =>
    match substrFind clean code with
    | some idx =>
      let candidate := (clean.drop idx).take 24
      if candidate.length = 24 then some candidate else code_scan clean rest
    | none => code_scan clean rest

/-- The RIB post-processing of `parse_extracted_text` (its "Safety Net"):
sanitize the model's value, then — while the result is not 24 digits — try the
IBAN scan over the raw text, then the known-code scan over the cleaned string. -/
def recover_rib (raw_rib : List Char) (raw_text : List Char)
    (known_bank_codes : List (List Char)) : List Char :=
  let clean1 := sanitize_ocr_numbers raw_rib
  let clean2 :=
    if clean1.length ≠ 24 then
      match iban_scan raw_text with
      | some potential => if potential.length = 24 then potential else clean1
      | none => clean1
    else clean1
  if clean2.length ≠ 24 then
    match code_scan clean2 known_bank_codes with
    | some found => found
    | none => clean2
  else clean2

/-- `ocr.parse_extracted_text` for `doc_type="RIB"`. The Gemini call is the
oracle `model`, applied to the truncated prompt text; `Except.error e` is the
`except` branch (it returns the error-sentinel dict whose `raw_text` holds the
exception text). Empty raw text returns `none` (the source returns `{}`). -/
def parse_extracted_text (raw_text : List Char) (known_bank_codes : List (List Char))
    (model : List Char → Except (List Char) ModelJson) : Option ParsedRib :=
  if raw_text = [] then none
  else
    match model (model_input raw_text) with
    | .error e =>
      some { rib := [], firstName := [], lastName := [], bankName := [],
             raw_text := "Error: ".toList ++ e }
    | .ok data =>
      let raw_rib := data.rib.getD []
      let clean_rib := recover_rib raw_rib raw_text known_bank_codes
      some { rib := clean_rib,
             firstName := (data.firstName.getD []).map Char.toUpper,
             lastName := (data.lastName.getD []).map Char.toUpper,
             bankName := pyStrip (data.bankName.getD []),
             raw_text := raw_text.take 3000 }

/-- `ocr.validate_extraction_in_source`: `False` on a falsy extracted value
(`None` or the empty string), otherwise the alnum-uppercase cleaning of the
extracted value must occur inside the same cleaning of the raw text. -/
def validate_extraction_in_source (extracted : Option (List Char))
    (raw_text : List Char) : Bool :=
  match extracted with
  | none => false
  | some v =>
    if v = [] then false
    else containsSub (cleanAlnum raw_text) (cleanAlnum v)

/-! ## app/models.py and app/crud.py -/

/-- `models.Period` (fields the claims touch; `name`/`created_at` omitted). -/
structure Period where
  id : String
  is_locked : Bool
  deriving DecidableEq, Repr

/-- `models.EmployeeRib` (the bank-slip record; `created_at` omitted). -/
structure EmployeeRib where
  id : String
  file_name : String
  first_name : Option (List Char)
  last_name : Option (List Char)
  rib : Option (List Char)
  ai_bank_name : Option (List Char)
  raw_text : Option (List Char)
  status : String
  is_manually_corrected : Bool
  period_id : String
  deriving DecidableEq, Repr

/-- `crud.check_duplicate_rib`: `False` on a falsy account number (`None` or
empty), else whether some record of the period carries exactly that value. -/
def check_duplicate_rib (db : List EmployeeRib) (period_id : String)
    (rib : Option (List Char)) : Bool :=
  match rib with
  | none => false
  | some r =>
    if r = [] then false
    else db.any (fun row => row.period_id == period_id && row.rib == some r)

/-! ## app/routers/ribs.py -/

/-- The status decision of `upload_files` (lines 180-201): ERROR when the model
returned no RIB, ERROR when the validity decision fails, else DUPLICATE before
SUSPICIOUS before SUCCESS. `retry_all_period_errors` reuses the same logic per
record ("We reuse the logic"), with the record's own stored raw text. -/
def upload_classify (db : List EmployeeRib) (period_id : String)
    (codes : List (List Char)) (rib : List Char) (raw_text : List Char) : String :=
  if rib = [] then "ERROR"
  else if validate_moroccan_rib_db rib codes then
    if check_duplicate_rib db period_id (some rib) then "DUPLICATE"
    else if !validate_extraction_in_source (some rib) raw_text then "SUSPICIOUS"
    else "SUCCESS"
  else "ERROR"

/-- One uploaded file, with the outcomes of the external collaborators it
meets: the text-extraction result and the Gemini oracle, plus the id the new
row receives. -/
structure UploadInput where
  new_id : String
  file_name : String
  raw_text : List Char
  model : List Char → Except (List Char) ModelJson

/-- The row `upload_files` inserts for one file. When raw text is empty,
`parse_extracted_text` returns `{}` and `parsed_data["rib"]` raises `KeyError`,
so the per-file `except` branch records an ERROR row whose raw text carries the
exception message (`str(KeyError('rib'))` renders as `'rib'`). -/
def process_upload_file (db : List EmployeeRib) (period_id : String)
    (codes : List (List Char)) (f : UploadInput) : EmployeeRib :=
  match parse_extracted_text f.raw_text codes f.model with
  | none =>
    { id := f.new_id, file_name := f.file_name, first_name := none,
      last_name := none, rib := none, ai_bank_name := none,
      raw_text := some ("Error: \x27rib\x27".toList), status := "ERROR",
      is_manually_corrected := false, period_id := period_id }
  | some p =>
    { id := f.new_id, file_name := f.file_name,
      first_name := some p.firstName, last_name := some p.lastName,
      rib := some p.rib, ai_bank_name := some p.bankName,
      raw_text := some p.raw_text,
      status := upload_classify db period_id codes p.rib f.raw_text,
      is_manually_corrected := false, period_id := period_id }

/-- `upload_files`: rejected outright on a locked period; otherwise each file
is processed and committed in order, so the duplicate check of a later file
sees the rows created for earlier files of the same batch. -/
def upload_files (db : List EmployeeRib) (period : Period)
    (codes : List (List Char)) (files : List UploadInput) :
    Except String (List EmployeeRib) :=
  if period.is_locked then .error "This period is closed. Ask Admin to open it."
  else .ok (files.foldl
    (fun acc f => acc ++ [process_upload_file acc period.id codes f]) db)

/-- `update_rib`: the manual-edit route. `period` is the record's owning
period (`rib_entry.period`). Rejected when locked; otherwise re-validated with
the inline length / bank-code / duplicate checks (no source-consistency check)
and saved with `is_manually_corrected = True`. -/
def update_rib (db : List EmployeeRib) (period : Period) (rib_entry : EmployeeRib)
    (first_name last_name rib : List Char) (codes : List (List Char)) :
    Except String EmployeeRib :=
  if period.is_locked then
    .error "Action refusée : Ce dossier est verrouillé. Demandez à un Admin de le réouvrir."
  else
    let clean_rib := normalize_rib rib
    let new_status :=
      if clean_rib.length ≠ 24 then "ERROR"
      else if decide (clean_rib.take 3 ∉ codes) then "ERROR"
      else if check_duplicate_rib db rib_entry.period_id (some clean_rib)
              && some clean_rib != rib_entry.rib then "DUPLICATE"
      else "SUCCESS"
    .ok { rib_entry with
          first_name := some (first_name.map Char.toUpper),
          last_name := some (last_name.map Char.toUpper),
          rib := some clean_rib, status := new_status,
          is_manually_corrected := true }

/-- `delete_rib`: rejected when the record exists and its period is locked;
otherwise the record (if any) is removed. `period` is the owning period of the
record named by `rib_id` when that record exists. -/
def delete_rib (db : List EmployeeRib) (period : Period) (rib_id : String) :
    Except String (List EmployeeRib) :=
  match db.find? (fun r => r.id == rib_id) with
  | some _ =>
    if period.is_locked then .error "Period is locked. Cannot delete."
    else .ok (db.filter (fun r => r.id != rib_id))
  | none => .ok (db.filter (fun r => r.id != rib_id))

/-- Result of the single-record retry route: the saved record and whether the
structured-extraction model was invoked at all. -/
structure RetryOutcome where
  record : EmployeeRib
  geminiCalled : Bool
  deriving DecidableEq, Repr

/-- `retry_rib_ai`, the single-record retry (lines 304-443). `period` is the
record's owning period — the handler can reach it through `rib_entry.period`
but never consults `is_locked`, which is why the parameter is unused below.
`fileText` is the outcome of re-reading and re-OCRing the stored file when the
stored raw text is short (`none` when the file is missing, unreadable, or OCR
fails); `model` is the Gemini oracle. Step 2 persists recovered text (without
truncation) only when it is non-empty and longer than 20 characters; step 3
aborts — returning the row with no model call — when the text on the record is
still absent or shorter than 20 characters; steps 4-5 re-run extraction and
classification (duplicate check excluding the record itself) and save the
parsed fields with `is_manually_corrected = False`. -/
def retry_rib_ai (db : List EmployeeRib) (_period : Period) (rec : EmployeeRib)
    (fileText : Option (List Char))
    (model : List Char → Except (List Char) ModelJson)
    (codes : List (List Char)) : RetryOutcome :=
  let text_len := (rec.raw_text.getD []).length
  let rec1 :=
    if text_len < 20 then
      match fileText with
      | some t =>
        if !t.isEmpty && 20 < t.length then { rec with raw_text := some t } else rec
      | none => rec
    else rec
  if rec1.raw_text = none ∨ (rec1.raw_text.getD []).length < 20 then
    { record := rec1, geminiCalled := false }
  else
    let t := rec1.raw_text.getD []
    match parse_extracted_text t codes model with
    | none =>
      -- unreachable here (t has at least 20 characters): were the parse to
      -- return `{}`, every `.get` would yield `None` and the save would blank
      -- the extracted fields with status ERROR.
      { record := { rec1 with
                    rib := none, first_name := none, last_name := none,
                    ai_bank_name := none, status := "ERROR",
                    is_manually_corrected := false },
        geminiCalled := true }
    | some p =>
      let status :=
        if p.rib ≠ [] then
          if validate_moroccan_rib_db p.rib codes then
            if db.any (fun row => row.period_id == rec.period_id
                && row.rib == some p.rib && row.id != rec.id) then "DUPLICATE"
            else if !validate_extraction_in_source (some p.rib) t then "SUSPICIOUS"
            else "SUCCESS"
          else "ERROR"
        else "ERROR"
      { record := { rec1 with
                    rib := some p.rib, first_name := some p.firstName,
                    last_name := some p.lastName, ai_bank_name := some p.bankName,
                    status := status, is_manually_corrected := false },
        geminiCalled := true }

/-- One step of the bulk-retry loop: records of the period whose status is
ERROR or SUSPICIOUS and whose raw text is present are re-parsed and
re-classified against the database as it stands at that point. -/
def bulk_retry_record (db : List EmployeeRib) (period_id : String)
    (codes : List (List Char)) (model : List Char → Except (List Char) ModelJson)
    (r : EmployeeRib) : EmployeeRib :=
  match r.raw_text with
  | none => r
  | some t =>
    if t = [] then r
    else
      match parse_extracted_text t codes model with
      | none => r
      | some p =>
        { r with
          rib := some p.rib, first_name := some p.firstName,
          last_name := some p.lastName, ai_bank_name := some p.bankName,
          status := upload_classify db period_id codes p.rib t,
          is_manually_corrected := false }

/-- The bulk-retry loop over the database: each targeted record is rewritten
in place; queries issued by later iterations observe the updates of earlier
ones (the session flushes pending writes before each duplicate query). -/
def retry_all_go (period_id : String) (codes : List (List Char))
    (model : List Char → Except (List Char) ModelJson) :
    List EmployeeRib → List EmployeeRib → List EmployeeRib
  | done, [] => done
  | done, r :: rest =>
    if r.period_id = period_id ∧ (r.status = "ERROR" ∨ r.status = "SUSPICIOUS") then
      let r2 := bulk_retry_record (done ++ r :: rest) period_id codes model r
      retry_all_go period_id codes model (done ++ [r2]) rest
    else retry_all_go period_id codes model (done ++ [r]) rest

/-- `retry_all_period_errors`, the bulk retry: rejected on a locked period,
otherwise the loop above runs over the stored records. -/
def retry_all_period_errors (db : List EmployeeRib) (period : Period)
    (codes : List (List Char)) (model : List Char → Except (List Char) ModelJson) :
    Except String (List EmployeeRib) :=
  if period.is_locked then .error "Action impossible"
  else .ok (retry_all_go period.id codes model [] db)

/-! ## app/services/cin_helper.py -/

/-- `cin_helper.clean_cin_number`: keep ASCII letters and digits, uppercase. -/
def clean_cin_number (text : Option (List Char)) : List Char :=
  match text with
  | none => []
  | some l => cleanAlnum l

/-- The regex `^[A-Z]{1,2}\d{3,8}$` of `validate_cin`: one or two capital
letters followed by three to eight digits, nothing else. The greedy letter
run cannot steal characters the digit run needs, so splitting at the first
non-letter is equivalent to the regex with backtracking. -/
def cin_pattern (l : List Char) : Bool :=
  let letters := l.takeWhile Char.isUpper
  let rest := l.dropWhile Char.isUpper
  1 ≤ letters.length && letters.length ≤ 2 &&
    3 ≤ rest.length && rest.length ≤ 8 && rest.all Char.isDigit

/-- A calendar date as `datetime.date` holds it. -/
structure PDate where
  year : Nat
  month : Nat
  day : Nat
  deriving DecidableEq, Repr

/-- Gregorian leap year, as `datetime.date` validates day-of-month. -/
def isLeapYear (y : Nat) : Bool :=
  y % 4 = 0 && (y % 100 ≠ 0 || y % 400 = 0)

/-- Days in a month of a given year. -/
def daysInMonth (y m : Nat) : Nat :=
  if m = 2 then (if isLeapYear y then 29 else 28)
  else if m = 4 ∨ m = 6 ∨ m = 9 ∨ m = 11 then 30
  else 31

/-- Construction of a `datetime.date`: year 1-9999, month 1-12, day within
the month, else `ValueError` (`none`). -/
def mkValidDate (d m y : Nat) : Option PDate :=
  if 1 ≤ y && y ≤ 9999 && 1 ≤ m && m ≤ 12 && 1 ≤ d && d ≤ daysInMonth y m
  then some { year := y, month := m, day := d } else none

/-- A day or month token of `strptime`: at most two digits whose value lies in
the pattern's range (CPython compiles `%d` to `3[01]|[12]\d|0[1-9]|[1-9]` and
`%m` to `1[012]|0[1-9]|[1-9]`, i.e. one or two digits valued in range). -/
def numToken (lo hi : Nat) (l : List Char) : Option Nat :=
  if !l.isEmpty && l.length ≤ 2 && l.all Char.isDigit then
    let v := natOfDigits l
    if lo ≤ v && v ≤ hi then some v else none
  else none

/-- `datetime.strptime(s, "%d<sep>%m<sep>%Y").date()`: the string must be
exactly day, month and a four-digit year joined by the separator (CPython
compiles `%Y` to four digits and rejects unconverted trailing data), and the
triple must form a real calendar date. -/
def strptime_dmy (sep : Char) (s : List Char) : Option PDate :=
  match s.splitOn sep with
  | [d, m, y] =>
    match numToken 1 31 d, numToken 1 12 m with
    | some dv, some mv =>
      if y.length = 4 && y.all Char.isDigit then mkValidDate dv mv (natOfDigits y)
      else none
    | _, _ => none
  | _ => none

/-- The OCR-noise cleaning `parse_date` applies before parsing:
`replace('O', '0').replace('o', '0').strip()`. -/
def dateClean (s : List Char) : List Char :=
  pyStrip (s.map (fun c => if c = 'O' ∨ c = 'o' then '0' else c))

/-- `cin_helper.parse_date`: `None` for a falsy input, otherwise try
`DD/MM/YYYY`, then `DD.MM.YYYY`, then `DD-MM-YYYY`, in that order. -/
def parse_date (date_str : Option (List Char)) : Option PDate :=
  match date_str with
  | none => none
  | some s =>
    if s = [] then none
    else
      match strptime_dmy '/' (dateClean s) with
      | some d => some d
      | none =>
        match strptime_dmy '.' (dateClean s) with
        | some d => some d
        | none => strptime_dmy '-' (dateClean s)

/-- Strict `<` on dates (`expiry_date < datetime.now().date()`). -/
def dateLt (a b : PDate) : Bool :=
  a.year < b.year ||
    (a.year = b.year && (a.month < b.month ||
      (a.month = b.month && a.day < b.day)))

/-- Python truthiness of an optional string: falsy when `None` or empty. -/
def falsyStr : Option (List Char) → Bool
  | none => true
  | some l => l.isEmpty

/-- `cin_helper.validate_cin`, with `today` standing for
`datetime.now().date()`. The year-range block in the source (`2020`/`2040`)
only `pass`es and is dropped. Note the length check applies to the last name
only: `if not first_name or not last_name or len(last_name) < 2`. -/
def validate_cin (cin_number first_name last_name validity_date : Option (List Char))
    (today : PDate) : String :=
  let cin_num := clean_cin_number cin_number
  if cin_num = [] then "ERROR"
  else if !cin_pattern cin_num then "ERROR"
  else if falsyStr first_name || falsyStr last_name
          || (last_name.getD []).length < 2 then "SUSPICIOUS"
  else if falsyStr validity_date then "SUSPICIOUS"
  else
    match parse_date validity_date with
    | none => "SUSPICIOUS"
    | some expiry => if dateLt expiry today then "EXPIRED" else "VALID"

/-! ## Helper lemmas -/

theorem toUpper_of_isDigit (c : Char) (h : c.isDigit = true) : c.toUpper = c := by
  simp [Char.isDigit, UInt32.le_def, BitVec.le_def] at h
  simp [Char.toUpper, Char.toNat, UInt32.toNat]
  intro h1
  omega

theorem map_toUpper_of_all_digits (l : List Char) (h : l.all Char.isDigit = true) :
    l.map Char.toUpper = l := by
  induction l with
  | nil => rfl
  | cons a t ih =>
    simp only [List.all_cons, Bool.and_eq_true] at h
    simp [toUpper_of_isDigit a h.1, ih h.2]

theorem map_subst_of_all_digits (k v : Char) (hk : k.isDigit = false) (l : List Char)
    (h : l.all Char.isDigit = true) :
    l.map (fun c => if c = k then v else c) = l := by
  induction l with
  | nil => rfl
  | cons a t ih =>
    simp only [List.all_cons, Bool.and_eq_true] at h
    have hak : a ≠ k := by
      rintro rfl
      rw [h.1] at hk
      cases hk
    simp [hak, ih h.2]

theorem foldl_subst_of_all_digits (ps : List (Char × Char)) (l : List Char)
    (hps : ∀ p ∈ ps, p.1.isDigit = false) (h : l.all Char.isDigit = true) :
    ps.foldl (fun t p => t.map (fun c => if c = p.1 then p.2 else c)) l = l := by
  induction ps with
  | nil => rfl
  | cons p ps ih =>
    rw [List.foldl_cons, map_subst_of_all_digits p.1 p.2 (hps p (by simp)) l h]
    exact ih (fun q hq => hps q (by simp [hq]))

theorem filter_digits_of_all (l : List Char) (h : l.all Char.isDigit = true) :
    l.filter Char.isDigit = l := by
  rw [List.filter_eq_self]
  exact List.all_eq_true.mp h

theorem sanitize_of_all_digits (l : List Char) (h : l.all Char.isDigit = true) :
    sanitize_ocr_numbers l = l := by
  simp only [sanitize_ocr_numbers]
  rw [map_toUpper_of_all_digits l h]
  rw [foldl_subst_of_all_digits OCR_MAPPING l (by decide) h]
  exact filter_digits_of_all l h

theorem all_digits_normalize (l : List Char) :
    (normalize_rib l).all Char.isDigit = true := by
  rw [List.all_eq_true]
  intro c hc
  exact (List.mem_filter.mp hc).2

theorem normalize_of_all_digits (l : List Char) (h : l.all Char.isDigit = true) :
    normalize_rib l = l :=
  filter_digits_of_all l h

theorem cleanAlnum_of_all_digits (l : List Char) (h : l.all Char.isDigit = true) :
    cleanAlnum l = l := by
  unfold cleanAlnum
  have hf : l.filter (fun c => c.isAlpha || c.isDigit) = l := by
    rw [List.filter_eq_self]
    intro a ha
    rw [List.all_eq_true] at h
    simp [h a ha]
  rw [hf, map_toUpper_of_all_digits l h]

theorem isPrefixOf_eq_true_iff (l₁ l₂ : List Char) :
    l₁.isPrefixOf l₂ = true ↔ ∃ t, l₂ = l₁ ++ t := by
  induction l₁ generalizing l₂ with
  | nil => simp [List.isPrefixOf]
  | cons a as ih =>
    cases l₂ with
    | nil => simp [List.isPrefixOf]
    | cons b bs => simp [List.isPrefixOf, ih bs, eq_comm (a := b) (b := a)]

theorem containsSub_iff (hay needle : List Char) :
    containsSub hay needle = true ↔ ∃ p q, hay = p ++ needle ++ q := by
  induction hay with
  | nil =>
    cases needle with
    | nil => exact ⟨fun _ => ⟨[], [], rfl⟩, fun _ => rfl⟩
    | cons b bs =>
      simp only [containsSub, substrFind, List.isPrefixOf]
      simp
  | cons a t ih =>
    by_cases hpre : needle.isPrefixOf (a :: t) = true
    · obtain ⟨u, hu⟩ := (isPrefixOf_eq_true_iff _ _).mp hpre
      constructor
      · intro _
        exact ⟨[], u, by simp [hu]⟩
      · intro _
        simp [containsSub, substrFind, hpre]
    · have hLHS : containsSub (a :: t) needle = containsSub t needle := by
        simp [containsSub, substrFind, hpre]
      rw [hLHS, ih]
      constructor
      · rintro ⟨p, q, hpq⟩
        exact ⟨a :: p, q, by simp [hpq]⟩
      · rintro ⟨p, q, hpq⟩
        cases p with
        | nil =>
          exfalso
          apply hpre
          rw [isPrefixOf_eq_true_iff]
          exact ⟨q, by simpa using hpq⟩
        | cons b p' =>
          simp only [List.cons_append, List.cons.injEq] at hpq
          exact ⟨p', q, hpq.2⟩

/-! ## Claim theorems -/

/-- C8: once normalization stabilizes at 24 digits it is idempotent —
`normalize(sanitize(normalize(x))) = normalize(x)` for every input whose
normalization has length 24 (the sanitize pass can neither change nor drop a
digit-only string). -/
theorem c8_normalize_roundtrip (x : List Char)
    (_h : (normalize_rib x).length = 24) :
    normalize_rib (sanitize_ocr_numbers (normalize_rib x)) = normalize_rib x := by
  have hd := all_digits_normalize x
  rw [sanitize_of_all_digits _ hd, normalize_of_all_digits _ hd]

theorem c8_witness :
    (normalize_rib "0078 1000 0000 0000 0000 0031".toList).length = 24 ∧
    normalize_rib (sanitize_ocr_numbers
        (normalize_rib "0078 1000 0000 0000 0000 0031".toList)) =
      normalize_rib "0078 1000 0000 0000 0000 0031".toList :=
  ⟨by decide, c8_normalize_roundtrip _ (by decide)⟩

/-- C9: the anti-hallucination check succeeds exactly when the extracted value
is present, non-empty, and its alnum-uppercase cleaning occurs contiguously
inside the same cleaning of the raw text — hence it is insensitive to spacing,
punctuation and case, and a `None` or empty extracted value always fails, for
any raw text. -/
theorem c9_validate_extraction_iff (extracted : Option (List Char)) (raw : List Char) :
    validate_extraction_in_source extracted raw = true ↔
      ∃ v, extracted = some v ∧ v ≠ [] ∧
        ∃ p q, cleanAlnum raw = p ++ cleanAlnum v ++ q := by
  cases extracted with
  | none => simp [validate_extraction_in_source]
  | some v =>
    by_cases hv : v = []
    · subst hv
      simp [validate_extraction_in_source]
    · simp [validate_extraction_in_source, hv, containsSub_iff]

/-- C10: the duplicate lookup returns `False` for a `None` or empty account
number, whatever the stored records are; and in the upload classification a
record without an account number is classified ERROR, never DUPLICATE, so two
records that both lack an account number are never marked duplicates of each
other. -/
theorem c10_empty_rib_never_duplicate (db : List EmployeeRib) (pid : String)
    (codes : List (List Char)) (raw : List Char) :
    check_duplicate_rib db pid none = false ∧
    check_duplicate_rib db pid (some []) = false ∧
    upload_classify db pid codes [] raw = "ERROR" :=
  ⟨rfl, rfl, rfl⟩

/-- C1: evaluation of the code at the failing input. The validity decision
implemented in `src/app/services/banking.py` is the modulo-97 key check, not
the length/bank-code test the spec (and the comments inside `upload_files`)
describe: `007810000000000000000000` is 24 digits long and starts with the
registered code `007`, yet `validate_moroccan_rib` reports `isValid = False`
because its trailing key `00` differs from the computed `31` — so its
classification becomes ERROR on checksum grounds alone. The spec-modelled,
checksum-free decision accepts the same value. -/
theorem c1_checksum_decides_validity :
    ("007810000000000000000000".toList).length = 24 ∧
    ("007810000000000000000000".toList).all Char.isDigit = true ∧
    ("007810000000000000000000".toList).take 3 ∈ INITIAL_BANK_CODES ∧
    ("007810000000000000000000".toList).take 3 ∈ MOROCCAN_BANKS.map Prod.fst ∧
    verify_rib_key ("007810000000000000000000".toList) = false ∧
    (validate_moroccan_rib ("007810000000000000000000".toList) none).isValid = false ∧
    validate_moroccan_rib_db ("007810000000000000000000".toList) INITIAL_BANK_CODES
      = true := by
  decide

/-- C2: for a 24-digit account number whose 3-digit prefix is registered and
which has no duplicate in the period, the upload classification is SUCCESS
exactly when the digit sequence occurs contiguously in the alnum-uppercase
normalization of the raw text, and SUSPICIOUS otherwise. -/
theorem c2_upload_success_iff_in_source (db : List EmployeeRib) (pid : String)
    (codes : List (List Char)) (rib raw : List Char)
    (h24 : rib.length = 24) (hdig : rib.all Char.isDigit = true)
    (hcode : rib.take 3 ∈ codes)
    (hdup : check_duplicate_rib db pid (some rib) = false) :
    (upload_classify db pid codes rib raw = "SUCCESS" ↔
      ∃ p q, cleanAlnum raw = p ++ rib ++ q) ∧
    (upload_classify db pid codes rib raw = "SUCCESS" ∨
      upload_classify db pid codes rib raw = "SUSPICIOUS") := by
  have hne : rib ≠ [] := by
    intro he
    rw [he] at h24
    cases h24
  have hval : validate_moroccan_rib_db rib codes = true := by
    simp only [validate_moroccan_rib_db, normalize_of_all_digits rib hdig]
    simp [h24, hcode]
  have hsrc : validate_extraction_in_source (some rib) raw =
      containsSub (cleanAlnum raw) rib := by
    simp [validate_extraction_in_source, hne, cleanAlnum_of_all_digits rib hdig]
  have hred : upload_classify db pid codes rib raw =
      if containsSub (cleanAlnum raw) rib then "SUCCESS" else "SUSPICIOUS" := by
    cases hb : containsSub (cleanAlnum raw) rib <;>
      simp [upload_classify, hne, hval, hdup, hsrc, hb]
  rw [hred]
  by_cases hb : containsSub (cleanAlnum raw) rib = true
  · rw [if_pos hb]
    have hcs := (containsSub_iff (cleanAlnum raw) rib).mp hb
    exact ⟨⟨fun _ => hcs, fun _ => rfl⟩, Or.inl rfl⟩
  · rw [if_neg hb]
    have hcs : ¬ ∃ p q, cleanAlnum raw = p ++ rib ++ q :=
      fun hex => hb ((containsSub_iff _ _).mpr hex)
    exact ⟨⟨fun h => absurd h (by decide), fun hex => absurd hex hcs⟩, Or.inr rfl⟩

theorem c2_witness :
    upload_classify [] "p" ["007".toList] ("007810000000000000000000".toList)
      ("RIB: 0078 1000 0000 0000 0000 0000".toList) = "SUCCESS" :=
  (c2_upload_success_iff_in_source [] "p" ["007".toList] _ _
      (by decide) (by decide) (by decide) (by decide)).1.mpr
    ⟨"RIB".toList, [], by decide⟩

/-- C3 counterexample: the single-record retry route performs no lock check.
On a record of a locked period with usable stored text, retry proceeds — the
extraction model is invoked and the record is rewritten (here the manual
correction flag is cleared and the status flips from SUCCESS to ERROR) instead
of being rejected with a policy error. -/
theorem c3_counterexample :
    (Period.mk "p1" true).is_locked = true ∧
    (retry_rib_ai [] (Period.mk "p1" true)
        (EmployeeRib.mk "r1" "f.pdf" (some ("JOHN".toList)) (some ("DOE".toList))
          (some ("007810000000000000000031".toList)) none
          (some ("ABCDEFGHIJKLMNOPQRSTU".toList)) "SUCCESS" true "p1")
        none (fun _ => Except.error []) []).geminiCalled = true ∧
    (retry_rib_ai [] (Period.mk "p1" true)
        (EmployeeRib.mk "r1" "f.pdf" (some ("JOHN".toList)) (some ("DOE".toList))
          (some ("007810000000000000000031".toList)) none
          (some ("ABCDEFGHIJKLMNOPQRSTU".toList)) "SUCCESS" true "p1")
        none (fun _ => Except.error []) []).record.is_manually_corrected = false ∧
    (retry_rib_ai [] (Period.mk "p1" true)
        (EmployeeRib.mk "r1" "f.pdf" (some ("JOHN".toList)) (some ("DOE".toList))
          (some ("007810000000000000000031".toList)) none
          (some ("ABCDEFGHIJKLMNOPQRSTU".toList)) "SUCCESS" true "p1")
        none (fun _ => Except.error []) []).record.status = "ERROR" := by
  refine ⟨rfl, ?_, ?_, ?_⟩ <;> decide

/-- C3 (amended): on a locked period, creating records by upload, the manual
update, the delete of an existing record, and the bulk retry are each rejected
with their policy error, returning no state — the stored records are left
untouched. The single-record retry route is the exception: it has no lock
check (see the C3 counterexample above). -/
theorem c3_locked_period_rejects_mutations (period : Period)
    (h : period.is_locked = true) (db : List EmployeeRib)
    (codes : List (List Char)) (files : List UploadInput)
    (rib_entry : EmployeeRib) (fn ln rb : List Char) (rib_id : String)
    (model : List Char → Except (List Char) ModelJson) :
    upload_files db period codes files =
      Except.error "This period is closed. Ask Admin to open it." ∧
    update_rib db period rib_entry fn ln rb codes =
      Except.error
        "Action refusée : Ce dossier est verrouillé. Demandez à un Admin de le réouvrir." ∧
    (∀ r, db.find? (fun x => x.id == rib_id) = some r →
      delete_rib db period rib_id = Except.error "Period is locked. Cannot delete.") ∧
    retry_all_period_errors db period codes model =
      Except.error "Action impossible" := by
  refine ⟨?_, ?_, ?_, ?_⟩
  · simp [upload_files, h]
  · simp [update_rib, h]
  · intro r hr
    simp [delete_rib, hr, h]
  · simp [retry_all_period_errors, h]

theorem c3_witness :
    upload_files [] (Period.mk "p1" true) [] [] =
      Except.error "This period is closed. Ask Admin to open it." ∧
    update_rib [] (Period.mk "p1" true)
        (EmployeeRib.mk "r1" "f" none none none none none "PENDING" false "p1")
        [] [] [] [] =
      Except.error
        "Action refusée : Ce dossier est verrouillé. Demandez à un Admin de le réouvrir." ∧
    retry_all_period_errors [] (Period.mk "p1" true) []
        (fun _ => Except.error []) =
      Except.error "Action impossible" :=
  ⟨(c3_locked_period_rejects_mutations (Period.mk "p1" true) rfl [] [] []
      (EmployeeRib.mk "r1" "f" none none none none none "PENDING" false "p1")
      [] [] [] "r1" (fun _ => Except.error [])).1,
   (c3_locked_period_rejects_mutations (Period.mk "p1" true) rfl [] [] []
      (EmployeeRib.mk "r1" "f" none none none none none "PENDING" false "p1")
      [] [] [] "r1" (fun _ => Except.error [])).2.1,
   (c3_locked_period_rejects_mutations (Period.mk "p1" true) rfl [] [] []
      (EmployeeRib.mk "r1" "f" none none none none none "PENDING" false "p1")
      [] [] [] "r1" (fun _ => Except.error [])).2.2.2⟩

/-- C6: when the stored raw text is shorter than 20 characters and re-reading
the file recovers nothing longer than 20 characters (including the
file-absent case), the retry aborts: the extraction model is never called and
the record is returned exactly as stored. -/
theorem c6_retry_aborts_unchanged (db : List EmployeeRib) (period : Period)
    (rec : EmployeeRib) (fileText : Option (List Char))
    (model : List Char → Except (List Char) ModelJson) (codes : List (List Char))
    (hshort : (rec.raw_text.getD []).length < 20)
    (hfile : ∀ t, fileText = some t → t.length ≤ 20) :
    (retry_rib_ai db period rec fileText model codes).geminiCalled = false ∧
    (retry_rib_ai db period rec fileText model codes).record = rec := by
  cases fileText with
  | none =>
    constructor <;> simp [retry_rib_ai, hshort]
  | some t =>
    have h20 : ¬ (20 < t.length) := Nat.not_lt.mpr (hfile t rfl)
    constructor <;> simp [retry_rib_ai, hshort, h20]

theorem c6_witness :
    (retry_rib_ai [] (Period.mk "p1" false)
        (EmployeeRib.mk "r1" "f.jpg" none none none none none "ERROR" false "p1")
        none (fun _ => Except.error []) []).geminiCalled = false ∧
    (retry_rib_ai [] (Period.mk "p1" false)
        (EmployeeRib.mk "r1" "f.jpg" none none none none none "ERROR" false "p1")
        none (fun _ => Except.error []) []).record =
      EmployeeRib.mk "r1" "f.jpg" none none none none none "ERROR" false "p1" :=
  c6_retry_aborts_unchanged [] (Period.mk "p1" false)
    (EmployeeRib.mk "r1" "f.jpg" none none none none none "ERROR" false "p1")
    none (fun _ => Except.error []) [] (by decide) (fun t ht => nomatch ht)

/-- C7 counterexample: the retry re-extraction path persists recovered raw
text without truncation. A record with no stored text whose file re-reads to
3050 characters ends the retry carrying all 3050 characters — above the
3000-character persistence bound the claim asserts for every path. -/
theorem c7_counterexample :
    3000 < ((retry_rib_ai [] (Period.mk "p1" false)
        (EmployeeRib.mk "r1" "f.jpg" none none none none none "ERROR" false "p1")
        (some (List.replicate 3050 'A')) (fun _ => Except.error []) []).record.raw_text.getD
          []).length := by
  have key : ∀ (c : Char) (t0 : List Char), 20 < (c :: t0).length →
      ((retry_rib_ai [] (Period.mk "p1" false)
        (EmployeeRib.mk "r1" "f.jpg" none none none none none "ERROR" false "p1")
        (some (c :: t0)) (fun _ => Except.error []) []).record.raw_text.getD []).length
      = (c :: t0).length := by
    intro c t0 h20
    have hge := Nat.not_lt.mpr h20.le
    simp only [List.length_cons] at h20 hge
    simp [retry_rib_ai, parse_extracted_text, h20, hge]
  have hrep : List.replicate 3050 'A' = 'A' :: List.replicate 3049 'A' := rfl
  have hlen : 20 < ('A' :: List.replicate 3049 'A').length := by
    rw [List.length_cons, List.length_replicate]
    omega
  rw [hrep, key 'A' (List.replicate 3049 'A') hlen, List.length_cons,
    List.length_replicate]
  omega

/-- C7 (amended): the text handed to the extraction model is always the
5000-character prefix of the raw text; whenever the model call succeeds, the
record `parse_extracted_text` returns carries the raw text truncated to 3000
characters, and the row the upload path persists obeys the same 3000-character
bound. (The retry re-extraction path stores recovered text untruncated — see
the C7 counterexample.) -/
theorem c7_truncation_bounds :
    (∀ raw : List Char, (model_input raw).length ≤ 5000) ∧
    (∀ (raw : List Char) (codes : List (List Char))
        (model : List Char → Except (List Char) ModelJson)
        (data : ModelJson) (p : ParsedRib),
      model (model_input raw) = Except.ok data →
      parse_extracted_text raw codes model = some p →
      p.raw_text = raw.take 3000) ∧
    (∀ (db : List EmployeeRib) (pid : String) (codes : List (List Char))
        (f : UploadInput) (data : ModelJson),
      f.model (model_input f.raw_text) = Except.ok data →
      ((process_upload_file db pid codes f).raw_text.getD []).length ≤ 3000) := by
  have hparse : ∀ (raw : List Char) (codes : List (List Char))
      (model : List Char → Except (List Char) ModelJson)
      (data : ModelJson) (p : ParsedRib),
      model (model_input raw) = Except.ok data →
      parse_extracted_text raw codes model = some p →
      p.raw_text = raw.take 3000 := by
    intro raw codes model data p hm hp
    by_cases hraw : raw = []
    · rw [hraw] at hp
      simp [parse_extracted_text] at hp
    · simp only [parse_extracted_text, if_neg hraw, hm] at hp
      obtain rfl := (Option.some_inj.mp hp).symm
      rfl
  refine ⟨fun raw => ?_, hparse, ?_⟩
  · exact List.length_take_le 5000 raw
  · intro db pid codes f data hm
    cases hp : parse_extracted_text f.raw_text codes f.model with
    | none => simp [process_upload_file, hp]
    | some p =>
      have := hparse f.raw_text codes f.model data p hm hp
      simp [process_upload_file, hp, this]

theorem c7_witness :
    (model_input ("hello world".toList)).length ≤ 5000 ∧
    ((process_upload_file [] "p" []
        (UploadInput.mk "id1" "f.jpg" ("ABCDEFGHIJKLMNOPQRSTUVWXYZ".toList)
          (fun _ => Except.ok (ModelJson.mk none none none none)))).raw_text.getD
        []).length ≤ 3000 :=
  ⟨c7_truncation_bounds.1 ("hello world".toList),
   c7_truncation_bounds.2.2 [] "p" []
     (UploadInput.mk "id1" "f.jpg" ("ABCDEFGHIJKLMNOPQRSTUVWXYZ".toList)
       (fun _ => Except.ok (ModelJson.mk none none none none)))
     (ModelJson.mk none none none none) rfl⟩

/-! ## Lemmas for the recovery strategies -/

theorem takeDigitsWs_length : ∀ (n : Nat) (l r : List Char),
    takeDigitsWs n l = some r → r.length = n := by
  intro n
  induction n with
  | zero =>
    intro l r h
    simp [takeDigitsWs] at h
    simp [← h]
  | succ m ih =>
    intro l r h
    cases l with
    | nil => simp [takeDigitsWs] at h
    | cons c rest =>
      simp only [takeDigitsWs] at h
      by_cases hc : c.isDigit = true
      · rw [if_pos hc] at h
        obtain ⟨r', hr', rfl⟩ := Option.map_eq_some'.mp h
        simp [ih _ _ hr']
      · rw [if_neg hc] at h
        cases h

theorem matchIbanAt_length (l r : List Char) (h : matchIbanAt l = some r) :
    r.length = 24 := by
  cases l with
  | nil => simp [matchIbanAt] at h
  | cons m t =>
    cases t with
    | nil => simp [matchIbanAt] at h
    | cons a rest =>
      simp only [matchIbanAt] at h
      by_cases hma : (decide (m.toUpper = 'M') && decide (a.toUpper = 'A')) = true
      · rw [if_pos hma] at h
        cases h1 : rest.dropWhile Char.isWhitespace with
        | nil =>
          simp only [h1] at h
          cases h
        | cons d1 t1 =>
          cases t1 with
          | nil =>
            simp only [h1] at h
            cases h
          | cons d2 r2 =>
            simp only [h1] at h
            by_cases hd : (d1.isDigit && d2.isDigit) = true
            · rw [if_pos hd] at h
              exact takeDigitsWs_length 24 _ r h
            · rw [if_neg hd] at h
              cases h
      · rw [if_neg hma] at h
        cases h

theorem iban_scan_length : ∀ (l r : List Char),
    iban_scan l = some r → r.length = 24 := by
  intro l
  induction l with
  | nil =>
    intro r h
    cases h
  | cons a t ih =>
    intro r h
    simp only [iban_scan] at h
    cases hm : matchIbanAt (a :: t) with
    | some x =>
      rw [hm] at h
      obtain rfl := Option.some_inj.mp h
      exact matchIbanAt_length _ _ hm
    | none =>
      rw [hm] at h
      exact ih r h

theorem code_scan_spec : ∀ (codes : List (List Char)) (clean c : List Char),
    code_scan clean codes = some c →
    c.length = 24 ∧ ∃ code ∈ codes, ∃ i,
      substrFind clean code = some i ∧ c = (clean.drop i).take 24 := by
  intro codes
  induction codes with
  | nil =>
    intro clean c h
    cases h
  | cons code rest ih =>
    intro clean c h
    simp only [code_scan] at h
    cases hf : substrFind clean code with
    | some idx =>
      simp only [hf] at h
      by_cases hlen : ((clean.drop idx).take 24).length = 24
      · rw [if_pos hlen] at h
        obtain rfl := Option.some_inj.mp h
        exact ⟨hlen, code, by simp, idx, hf, rfl⟩
      · rw [if_neg hlen] at h
        obtain ⟨h1, cd, hcd, hrest⟩ := ih clean c h
        exact ⟨h1, cd, by simp [hcd], hrest⟩
    | none =>
      simp only [hf] at h
      obtain ⟨h1, cd, hcd, hrest⟩ := ih clean c h
      exact ⟨h1, cd, by simp [hcd], hrest⟩

/-- C5: when the sanitized model value is not 24 digits the two recovery
strategies apply in order — a successful IBAN scan wins outright (and always
yields exactly 24 digits); only if it fails does the known-code scan run, its
result being the 24-digit window at the first occurrence of some registered
code in the cleaned string; if both fail, the normalizer's value is kept. -/
theorem c5_recovery_strategies (raw_rib raw_text : List Char)
    (codes : List (List Char))
    (h : (sanitize_ocr_numbers raw_rib).length ≠ 24) :
    (∀ r, iban_scan raw_text = some r →
      recover_rib raw_rib raw_text codes = r ∧ r.length = 24) ∧
    (iban_scan raw_text = none →
      ∀ c, code_scan (sanitize_ocr_numbers raw_rib) codes = some c →
        recover_rib raw_rib raw_text codes = c ∧ c.length = 24 ∧
        ∃ code ∈ codes, ∃ i,
          substrFind (sanitize_ocr_numbers raw_rib) code = some i ∧
          c = ((sanitize_ocr_numbers raw_rib).drop i).take 24) ∧
    (iban_scan raw_text = none →
      code_scan (sanitize_ocr_numbers raw_rib) codes = none →
      recover_rib raw_rib raw_text codes = sanitize_ocr_numbers raw_rib) := by
  refine ⟨?_, ?_, ?_⟩
  · intro r hib
    have h24 := iban_scan_length raw_text r hib
    refine ⟨?_, h24⟩
    simp [recover_rib, h, hib, h24]
  · intro hib c hcs
    obtain ⟨h24, spec⟩ := code_scan_spec codes (sanitize_ocr_numbers raw_rib) c hcs
    refine ⟨?_, h24, spec⟩
    simp [recover_rib, h, hib, hcs]
  · intro hib hcs
    simp [recover_rib, h, hib, hcs]

theorem c5_witness :
    recover_rib ("12".toList) ("MA64 0078 1000 0123 4567 8901 2345 67".toList)
        ["007".toList] = "007810000123456789012345".toList ∧
    ("007810000123456789012345".toList).length = 24 :=
  (c5_recovery_strategies ("12".toList)
      ("MA64 0078 1000 0123 4567 8901 2345 67".toList) ["007".toList]
      (by decide)).1 ("007810000123456789012345".toList) (by decide)

/-- C4 counterexample: a too-short (one-character) first name does not give
SUSPICIOUS — with a valid ID number, a valid last name and a future validity
date the record classifies VALID, because the length floor in `validate_cin`
applies to the last name only. -/
theorem c4_counterexample :
    ("J".toList).length < 2 ∧
    validate_cin (some ("A1234".toList)) (some ("J".toList)) (some ("DOE".toList))
      (some ("10/10/2030".toList)) (PDate.mk 2025 10 12) = "VALID" := by
  exact ⟨by decide, by decide⟩

/-- C4 (amended): the identity-card classification follows the source order:
empty cleaned ID number → ERROR; cleaned ID number failing the 1-2 letters +
3-8 digits pattern → ERROR; missing first name, or missing or
shorter-than-two-characters last name → SUSPICIOUS (the too-short test applies
to the last name only — a one-character first name passes); absent validity
date, or one unparsable after trying DD/MM/YYYY, DD.MM.YYYY, DD-MM-YYYY in
that order → SUSPICIOUS; parsed validity date strictly before the processing
date → EXPIRED; otherwise VALID. -/
theorem c4_cin_classification (cin fn ln vd : Option (List Char)) (today : PDate) :
    (clean_cin_number cin = [] → validate_cin cin fn ln vd today = "ERROR") ∧
    (cin_pattern (clean_cin_number cin) = false →
      validate_cin cin fn ln vd today = "ERROR") ∧
    (cin_pattern (clean_cin_number cin) = true →
      (falsyStr fn = true ∨ falsyStr ln = true ∨ (ln.getD []).length < 2) →
      validate_cin cin fn ln vd today = "SUSPICIOUS") ∧
    (cin_pattern (clean_cin_number cin) = true →
      falsyStr fn = false → falsyStr ln = false → ¬ (ln.getD []).length < 2 →
      (falsyStr vd = true ∨ parse_date vd = none) →
      validate_cin cin fn ln vd today = "SUSPICIOUS") ∧
    (∀ d, cin_pattern (clean_cin_number cin) = true →
      falsyStr fn = false → falsyStr ln = false → ¬ (ln.getD []).length < 2 →
      falsyStr vd = false → parse_date vd = some d →
      validate_cin cin fn ln vd today =
        (if dateLt d today then "EXPIRED" else "VALID")) ∧
    (∀ s : List Char, s ≠ [] →
      parse_date (some s) =
        match strptime_dmy '/' (dateClean s) with
        | some d => some d
        | none =>
          match strptime_dmy '.' (dateClean s) with
          | some d => some d
          | none => strptime_dmy '-' (dateClean s)) := by
  have hclean_ne : cin_pattern (clean_cin_number cin) = true →
      clean_cin_number cin ≠ [] := by
    intro hp he
    rw [he] at hp
    cases hp
  refine ⟨?_, ?_, ?_, ?_, ?_, ?_⟩
  · intro h
    simp [validate_cin, h]
  · intro hp
    by_cases hc : clean_cin_number cin = []
    · simp [validate_cin, hc]
    · simp [validate_cin, hc, hp]
  · intro hp hname
    have hb : (falsyStr fn || falsyStr ln || decide ((ln.getD []).length < 2))
        = true := by
      rcases hname with h | h | h <;> simp [h]
    simp [validate_cin, hclean_ne hp, hp, hb]
  · intro hp hfn hln hlen hvd
    rcases hvd with hvd | hvd
    · simp [validate_cin, hclean_ne hp, hp, hfn, hln, hlen, hvd]
    · by_cases hv : falsyStr vd = true
      · simp [validate_cin, hclean_ne hp, hp, hfn, hln, hlen, hv]
      · simp [validate_cin, hclean_ne hp, hp, hfn, hln, hlen, hv, hvd]
  · intro d hp hfn hln hlen hv hparse
    simp [validate_cin, hclean_ne hp, hp, hfn, hln, hlen, hv, hparse]
  · intro s hs
    simp [parse_date, hs]

theorem c4_witness :
    validate_cin (some ("A1234".toList)) (some ("JOHN".toList)) (some ("DOE".toList))
      (some ("10/10/2019".toList)) (PDate.mk 2024 6 1) = "EXPIRED" := by
  have h := (c4_cin_classification (some ("A1234".toList)) (some ("JOHN".toList))
      (some ("DOE".toList)) (some ("10/10/2019".toList))
      (PDate.mk 2024 6 1)).2.2.2.2.1 (PDate.mk 2019 10 10)
    (by decide) (by decide) (by decide) (by decide) (by decide) (by decide)
  rw [h]
  decide

end SmartRib
